import Mathlib

/-!
Verification development for the `css_check.py` style-hygiene scanner.

The script walks a directory tree, selects TypeScript sources, extracts
stylesheet references and hexadecimal color literals with `re`, resolves the
references against the filesystem, and classifies the findings.  Paths and
file contents are modelled as lists of characters; the operating system
(current working directory, `os.walk` output, `os.path.exists`, file reads)
is modelled by an explicit `FS` record, while every piece of logic of the
script itself is translated into an executable Lean definition below.
-/

namespace CssCheck

/-- Strings of the scanned tree are modelled as lists of characters. -/
abbrev Str := List Char

/-- One character of the class `[0-9a-fA-F]` of the color regex. -/
def isHexDigitCh (c : Char) : Bool :=
  c.isDigit || (decide (97 ≤ c.toNat) && decide (c.toNat ≤ 102)) ||
    (decide (65 ≤ c.toNat) && decide (c.toNat ≤ 70))

/-- `cs` starts with at least `n` characters of the hex class. -/
def hasHexRun (cs : Str) (n : Nat) : Bool :=
  decide (n ≤ cs.length) && (cs.take n).all isHexDigitCh

/-- The scanning loop of `re.findall(r"#([0-9a-fA-F]{3}){1,2}", content)`:
leftmost non-overlapping matches; at a `#` the greedy `{1,2}` tries two
repetitions of the three-hex-digit group, then one; `findall` records the
last repetition of the capture group, i.e. the final three digits of the
match.  The fuel argument only bounds the recursion; every step consumes at
least one character, so `length + 1` fuel is always sufficient. -/
def scanColor : Nat → Str → List Str
  | 0, _ => []
  | _ + 1, [] => []
  | fuel + 1, c :: cs =>
    if c == '#' then
      if hasHexRun cs 6 then ((cs.take 6).drop 3) :: scanColor fuel (cs.drop 6)
      else if hasHexRun cs 3 then (cs.take 3) :: scanColor fuel (cs.drop 3)
      else scanColor fuel cs
    else scanColor fuel cs

/-- `check_embedded_css(content)` of the script. -/
def check_embedded_css (content : Str) : List Str :=
  scanColor (content.length + 1) content

/-- Quote class `["\']` of the import regex. -/
def isQuoteCh (c : Char) : Bool :=
  c == '"' || c == Char.ofNat 39

/-- The whitespace class `\s` of Python `re` (ASCII part plus the Unicode
whitespace code points recognised for `str` patterns). -/
def isSpaceCh (c : Char) : Bool :=
  c == ' ' || c == '\t' || c == '\n' || c == '\r' || c == '\x0b' || c == '\x0c' ||
    (decide (28 ≤ c.toNat) && decide (c.toNat ≤ 31)) || decide (c.toNat = 133) ||
    decide (c.toNat = 160) || decide (c.toNat = 5760) ||
    (decide (8192 ≤ c.toNat) && decide (c.toNat ≤ 8202)) || decide (c.toNat = 8232) ||
    decide (c.toNat = 8233) || decide (c.toNat = 8239) || decide (c.toNat = 8287) ||
    decide (c.toNat = 12288)

/-- Match a literal character sequence at the front of `cs`, returning the
remainder on success. -/
def dropLit : Str → Str → Option Str
  | [], cs => some cs
  | _ :: _, [] => none
  | l :: ls, c :: cs => if l == c then dropLit ls cs else none

/-- Backtracking loop for `(.+?\.css)["\']`, after the lazy `.+?` has already
consumed the characters of `acc` (stored reversed, at least one).  At each
step the engine first tries to finish with the literal `.css` followed by a
closing quote; on failure it lets `.+?` consume one more non-newline
character.  Returns the capture group and the remainder after the match. -/
def cssGroupLoop : Nat → Str → Str → Option (Str × Str)
  | 0, _, _ => none
  | fuel + 1, acc, cs =>
    let exitRes : Option (Str × Str) :=
      match dropLit ('.' :: 'c' :: 's' :: 's' :: []) cs with
      | some (q :: rest) =>
        if isQuoteCh q then
          some (acc.reverse ++ ('.' :: 'c' :: 's' :: 's' :: []), rest)
        else none
      | _ => none
    match exitRes with
    | some r => some r
    | none =>
      match cs with
      | c :: cs' => if c == '\n' then none else cssGroupLoop fuel (c :: acc) cs'
      | [] => none

/-- Entry into the capture group `(.+?\.css)`: the lazy `.+?` must consume at
least one non-newline character before the loop above takes over. -/
def cssGroupStart (cs : Str) : Option (Str × Str) :=
  match cs with
  | c :: cs' => if c == '\n' then none else cssGroupLoop (cs'.length + 1) (c :: []) cs'
  | [] => none

/-- Backtracking loop for `.*?["\']` followed by the capture group: lazily,
the engine first tries to read an opening quote and complete the group; on
failure `.*?` consumes one more non-newline character. -/
def dotStarLoop : Nat → Str → Option (Str × Str)
  | 0, _ => none
  | fuel + 1, cs =>
    let exitRes : Option (Str × Str) :=
      match cs with
      | q :: cs' => if isQuoteCh q then cssGroupStart cs' else none
      | [] => none
    match exitRes with
    | some r => some r
    | none =>
      match cs with
      | c :: cs' => if c == '\n' then none else dotStarLoop fuel cs'
      | [] => none

/-- Greedy `\s+`: with `k` the number of whitespace characters still allowed,
try the longest repetition first and shorten on failure (at least one). -/
def spacesTry : Nat → Str → Option (Str × Str)
  | 0, _ => none
  | k + 1, cs =>
    match dotStarLoop ((cs.drop (k + 1)).length + 1) (cs.drop (k + 1)) with
    | some r => some r
    | none => spacesTry k cs

/-- Attempt the regex `import\s+.*?["\'](.+?\.css)["\']` anchored at the
front of `cs`; on success return the capture group and the remainder. -/
def importMatchAt (cs : Str) : Option (Str × Str) :=
  match dropLit ('i' :: 'm' :: 'p' :: 'o' :: 'r' :: 't' :: []) cs with
  | some rest => spacesTry ((rest.takeWhile isSpaceCh).length) rest
  | none => none

/-- The scan of `re.findall` for the import regex: try every position from
the left, continuing after the end of each match (matches never overlap). -/
def findCssImports : Nat → Str → List Str
  | 0, _ => []
  | fuel + 1, cs =>
    match importMatchAt cs with
    | some (g, rest) => g :: findCssImports fuel rest
    | none =>
      match cs with
      | [] => []
      | _ :: cs' => findCssImports fuel cs'

/-- All stylesheet references extracted from a file's content, in textual
order, duplicates preserved — the `re.findall` call of `check_files`. -/
def css_imports_of (content : Str) : List Str :=
  findCssImports (content.length + 1) content

/-- `str.split('/')`. -/
def splitOnSlash : Str → List Str
  | [] => [[]]
  | c :: cs =>
    let r := splitOnSlash cs
    if c == '/' then [] :: r
    else
      match r with
      | h :: t => (c :: h) :: t
      | [] => [c :: []]

/-- `posixpath.normpath`. -/
def normpath (p : Str) : Str :=
  if p = [] then ['.']
  else
    let slashes : Nat :=
      if p.head? = some '/' then
        if ('/' :: '/' :: []).isPrefixOf p ∧ ¬ (('/' :: '/' :: '/' :: []).isPrefixOf p) then 2
        else 1
      else 0
    let newComps := (splitOnSlash p).foldl (fun acc comp =>
      if comp = [] ∨ comp = ['.'] then acc
      else if comp ≠ ['.', '.'] ∨ (slashes = 0 ∧ acc = []) ∨
          (acc ≠ [] ∧ acc.getLast? = some ['.', '.']) then acc ++ [comp]
      else if acc ≠ [] then acc.dropLast
      else acc) []
    let res := List.replicate slashes '/' ++ List.intercalate ['/'] newComps
    if res = [] then ['.'] else res

/-- `posixpath.join` restricted to two arguments, as used by the script. -/
def joinPath (a b : Str) : Str :=
  if b.head? = some '/' then b
  else if a = [] then b
  else if a.getLast? = some '/' then a ++ b
  else a ++ ('/' :: b)

/-- `posixpath.dirname`. -/
def dirname (p : Str) : Str :=
  let head := (p.reverse.dropWhile (fun c => !(c == '/'))).reverse
  if head = [] then []
  else if head.all (fun c => c == '/') then head
  else (head.reverse.dropWhile (fun c => c == '/')).reverse

/-- Python `sub in s` substring test. -/
def hasSubstr : Str → Str → Bool
  | [], sub => sub.isEmpty
  | c :: cs, sub => sub.isPrefixOf (c :: cs) || hasSubstr cs sub

/-- The operating-system environment of one invocation: the current working
directory, the entries `os.walk(directory)` yields for the scanned root (a
pruned-to-nothing list when the root cannot be scanned, since `os.walk`
swallows the error with its default `onerror=None`), the `os.path.exists`
predicate and the outcome of opening a file for reading (`none` models an
`IOError`/`UnicodeDecodeError`). -/
structure FS where
  cwd : Str
  walk : List (Str × List Str)
  pathExists : Str → Bool
  readFile : Str → Option Str

/-- `os.path.abspath`: join with the working directory and normalise. -/
def abspath (fs : FS) (p : Str) : Str :=
  normpath (joinPath fs.cwd p)

/-- `Violation` namedtuple. -/
structure Violation where
  file_path : Str
  css_file : Str
  reason : Str
deriving DecidableEq

/-- `CorrectImport` namedtuple. -/
structure CorrectImport where
  file_path : Str
  css_file : Str
deriving DecidableEq

/-- `EmbeddedViolation` namedtuple. -/
structure EmbeddedViolation where
  file_path : Str
  css_codes : List Str
deriving DecidableEq

/-- `CSSCheckResult` namedtuple. -/
structure CSSCheckResult where
  violations : List Violation
  correct_imports : List CorrectImport
  embedded_violations : List EmbeddedViolation
deriving DecidableEq

/-- The candidate stylesheet path the script settles on: relative to the
source file's directory, and if that does not exist, relative to
`abspath(directory)`. -/
def resolveCssPath (fs : FS) (directory file_path css_file : Str) : Str :=
  let p1 := joinPath (dirname file_path) css_file
  if fs.pathExists p1 then p1 else joinPath (abspath fs directory) css_file

/-- Outcome of classifying one extracted stylesheet reference. -/
inductive ImportClass where
  | fileNotFound
  | compliant
  | disallowed
deriving DecidableEq

/-- The classification chain of `check_files` for one reference: existence
of the resolved candidate first, then the allowed-suffix test. -/
def classifyImport (fs : FS) (directory file_path css_file : Str)
    (allowed : List Str) : ImportClass :=
  if fs.pathExists (resolveCssPath fs directory file_path css_file) = false then
    ImportClass.fileNotFound
  else if allowed.any (fun pat => pat.isSuffixOf css_file) then
    ImportClass.compliant
  else
    ImportClass.disallowed

/-- The violation entry (if any) a single reference produces. -/
def violationOf (fs : FS) (directory file_path : Str) (allowed : List Str)
    (css_file : Str) : Option Violation :=
  match classifyImport fs directory file_path css_file allowed with
  | ImportClass.fileNotFound =>
    some ⟨file_path, css_file, "File not found".data⟩
  | ImportClass.compliant => none
  | ImportClass.disallowed =>
    some ⟨file_path, css_file, "Invalid import".data⟩

/-- The compliant entry (if any) a single reference produces. -/
def correctOf (fs : FS) (directory file_path : Str) (allowed : List Str)
    (css_file : Str) : Option CorrectImport :=
  match classifyImport fs directory file_path css_file allowed with
  | ImportClass.compliant => some ⟨file_path, css_file⟩
  | _ => none

/-- The `for css_file in css_imports` loop of `check_files`, producing the
violation and compliant-import entries of one file in textual order. -/
def processImports (fs : FS) (directory file_path : Str) (allowed : List Str) :
    List Str → List Violation × List CorrectImport
  | [] => ([], [])
  | css_file :: rest =>
    let r := processImports fs directory file_path allowed rest
    match classifyImport fs directory file_path css_file allowed with
    | ImportClass.fileNotFound =>
      (⟨file_path, css_file, "File not found".data⟩ :: r.1, r.2)
    | ImportClass.compliant => (r.1, ⟨file_path, css_file⟩ :: r.2)
    | ImportClass.disallowed =>
      (⟨file_path, css_file, "Invalid import".data⟩ :: r.1, r.2)

/-- Everything `check_files` does with the content of one selected,
successfully read file: extract and classify stylesheet references, and
record an embedded-CSS entry when the color scan found anything. -/
def analyzeContent (fs : FS) (directory file_path content : Str)
    (allowed : List Str) : CSSCheckResult :=
  let pr := processImports fs directory file_path allowed (css_imports_of content)
  let embedded := check_embedded_css content
  { violations := pr.1
    correct_imports := pr.2
    embedded_violations :=
      if embedded = [] then [] else [⟨file_path, embedded⟩] }

/-- Concatenation of scan results, preserving per-sequence order. -/
def appendResult (a b : CSSCheckResult) : CSSCheckResult :=
  ⟨a.violations ++ b.violations, a.correct_imports ++ b.correct_imports,
    a.embedded_violations ++ b.embedded_violations⟩

/-- The result of a scan that touched nothing. -/
def emptyResult : CSSCheckResult :=
  ⟨[], [], []⟩

/-- Diagnostic line printed when a selected file cannot be read (the
exception text appended by the script is part of the OS environment and is
not modelled). -/
def readErrLine (file_path : Str) : Str :=
  "Error reading file ".data ++ file_path

/-- Body of the `for file in files` loop: the excluded-file test, the
extension-and-test-directory filter, the read, and the per-content
analysis.  Returns the file's contribution to the result and the diagnostic
lines it printed. -/
def processOneFile (fs : FS) (directory root file : Str) (exF : List Str)
    (allowed : List Str) : CSSCheckResult × List Str :=
  let file_path := abspath fs (joinPath root file)
  if exF.contains file_path then (emptyResult, [])
  else if ((".ts".data.isSuffixOf file || ".tsx".data.isSuffixOf file) &&
      !(hasSubstr root ("test".data))) then
    match fs.readFile file_path with
    | none => (emptyResult, [readErrLine file_path])
    | some content => (analyzeContent fs directory file_path content allowed, [])
  else (emptyResult, [])

/-- Fold of the `for file in files` loop over one directory's file list. -/
def filesFold (fs : FS) (directory root : Str) (exF allowed : List Str) :
    List Str → CSSCheckResult × List Str
  | [] => (emptyResult, [])
  | file :: rest =>
    let h := processOneFile fs directory root file exF allowed
    let t := filesFold fs directory root exF allowed rest
    (appendResult h.1 t.1, h.2 ++ t.2)

/-- Fold of the `for root, _, files in os.walk(directory)` loop, with the
excluded-directory prefix test on the walk-reported `root` string. -/
def walkFold (fs : FS) (directory : Str) (exF exD allowed : List Str) :
    List (Str × List Str) → CSSCheckResult × List Str
  | [] => (emptyResult, [])
  | (root, files) :: rest =>
    let t := walkFold fs directory exF exD allowed rest
    if exD.any (fun d => d.isPrefixOf root) then t
    else
      let h := filesFold fs directory root exF allowed files
      (appendResult h.1 t.1, h.2 ++ t.2)

/-- `check_files` of the script: normalise the exclusion lists with
`abspath` and fold over the walk.  The second component collects the
diagnostic lines printed for unreadable files. -/
def check_files (fs : FS) (directory : Str)
    (exclude_files exclude_directories allowed_css_patterns : List Str) :
    CSSCheckResult × List Str :=
  walkFold fs directory (exclude_files.map (abspath fs))
    (exclude_directories.map (abspath fs)) allowed_css_patterns fs.walk

/-- The exit-code selection of `main`: start from `0`, set `1` when there
are import violations, set `1` when there are embedded violations. -/
def exitCodeOf (result : CSSCheckResult) : Nat :=
  let ec := 0
  let ec := if result.violations = [] then ec else 1
  if result.embedded_violations = [] then ec else 1

/-- The fixed remediation message printed after a violation report. -/
def remediationMsg : Str :=
  ("\nPlease address the above CSS violations:\n1. For invalid CSS " ++
    "imports, ensure you are using the correct import syntax and file " ++
    "paths.\n2. For embedded CSS, move the CSS to appropriate stylesheet " ++
    "files and anchor them correctly.\n3. Make sure to use only the " ++
    "allowed CSS patterns as specified in the script arguments.\n4. Check " ++
    "that all imported CSS files exist in the specified locations.\n").data

/-- `main` after argument parsing: run the scan, build the report lines,
and choose the exit code.  Returns the printed lines and the exit code. -/
def mainRun (fs : FS) (directory : Str)
    (exclude_files exclude_directories allowed_css_patterns : List Str)
    (show_success : Bool) : List Str × Nat :=
  let result := (check_files fs directory exclude_files exclude_directories
    allowed_css_patterns).1
  let output1 : List Str :=
    if result.violations = [] then []
    else "CSS Import Violations:".data ::
      result.violations.map (fun v =>
        "- ".data ++ v.file_path ++ ": ".data ++ v.css_file ++ " (".data ++
          v.reason ++ ")".data)
  let output2 : List Str :=
    if result.embedded_violations = [] then []
    else "\nEmbedded CSS Violations:".data ::
      result.embedded_violations.map (fun v =>
        "- ".data ++ v.file_path ++ ": ".data ++
          List.intercalate (", ".data) v.css_codes)
  let outv := output1 ++ output2
  let printed := if outv = [] then [] else outv ++ [remediationMsg]
  let printed :=
    if show_success && !(result.correct_imports = []) then
      printed ++ ("\nCorrect CSS Imports:".data ::
        result.correct_imports.map (fun i =>
          "- ".data ++ i.file_path ++ ": ".data ++ i.css_file))
    else printed
  (printed, exitCodeOf result)

/-- An environment where nothing exists and nothing can be read; its walk
list is empty, exactly what `os.walk` yields for an untraversable root. -/
def fs0 : FS :=
  ⟨"/w".data, [], fun _ => false, fun _ => none⟩

/-- An environment where every path exists (reads still fail). -/
def fs1 : FS :=
  ⟨"/w".data, [], fun _ => true, fun _ => none⟩

/-- A scan of the relative root `src` from working directory `/w`: the walk
reports relative paths, `src/sub` holds one TypeScript file whose content
carries an embedded color literal. -/
def fsC4 : FS :=
  ⟨"/w".data,
   [("src".data, []), ("src/sub".data, ["b.ts".data])],
   fun _ => false,
   fun p => if p = "/w/src/sub/b.ts".data then some ("#abc".data) else none⟩

/-- A scan whose only file is named `App.test.tsx` and sits in a directory
whose path has no `test` substring; its content has a color literal. -/
def fsC9 : FS :=
  ⟨"/w".data,
   [("src/components".data, ["App.test.tsx".data])],
   fun _ => false,
   fun p =>
     if p = "/w/src/components/App.test.tsx".data then some ("#AbC".data)
     else none⟩

theorem classify_no_allowed (fs : FS) (directory file_path css_file : Str) :
    classifyImport fs directory file_path css_file [] ≠ ImportClass.compliant := by
  unfold classifyImport
  by_cases h : fs.pathExists (resolveCssPath fs directory file_path css_file) = false <;>
    simp [h]

theorem processImports_no_allowed (fs : FS) (directory file_path : Str)
    (refs : List Str) :
    (processImports fs directory file_path [] refs).2 = [] := by
  induction refs with
  | nil => rfl
  | cons r rest ih =>
    simp only [processImports]
    cases hcl : classifyImport fs directory file_path r [] with
    | compliant => exact absurd hcl (classify_no_allowed fs directory file_path r)
    | fileNotFound => simp [hcl, ih]
    | disallowed => simp [hcl, ih]

theorem analyzeContent_no_allowed (fs : FS) (directory file_path content : Str) :
    (analyzeContent fs directory file_path content []).correct_imports = [] := by
  simp [analyzeContent, processImports_no_allowed]

theorem processOneFile_no_allowed (fs : FS) (directory root file : Str)
    (exF : List Str) :
    (processOneFile fs directory root file exF []).1.correct_imports = [] := by
  simp only [processOneFile]
  split_ifs with h1 h2
  · rfl
  · rcases h : fs.readFile (abspath fs (joinPath root file)) with _ | content <;>
      simp [h, analyzeContent_no_allowed, emptyResult]
  · rfl

theorem filesFold_no_allowed (fs : FS) (directory root : Str) (exF : List Str)
    (files : List Str) :
    (filesFold fs directory root exF [] files).1.correct_imports = [] := by
  induction files with
  | nil => rfl
  | cons f rest ih =>
    simp [filesFold, appendResult, processOneFile_no_allowed, ih]

theorem walkFold_no_allowed (fs : FS) (directory : Str) (exF exD : List Str)
    (entries : List (Str × List Str)) :
    (walkFold fs directory exF exD [] entries).1.correct_imports = [] := by
  induction entries with
  | nil => rfl
  | cons e rest ih =>
    rcases e with ⟨root, files⟩
    simp only [walkFold]
    split_ifs with h
    · exact ih
    · simp [appendResult, filesFold_no_allowed, ih]

/-- C1: per extracted stylesheet reference, classification follows the fixed
order: when neither the candidate resolved against the source file's
directory nor the candidate resolved against the scan root exists, the
reference is classified `File not found`; otherwise the allowed-suffix test
decides between a compliant import and an `Invalid import` violation, so
`File not found` is never produced when a candidate exists.  The per-file
loop turns each reference occurrence into exactly one entry — a violation or
a compliant import, never both. -/
theorem import_classification_order_c1 (fs : FS)
    (directory file_path css_file : Str) (allowed refs : List Str) :
    ((fs.pathExists (joinPath (dirname file_path) css_file) = false ∧
        fs.pathExists (joinPath (abspath fs directory) css_file) = false) →
      classifyImport fs directory file_path css_file allowed
        = ImportClass.fileNotFound)
  ∧ ((fs.pathExists (joinPath (dirname file_path) css_file) = true ∨
        fs.pathExists (joinPath (abspath fs directory) css_file) = true) →
      ((allowed.any fun pat => pat.isSuffixOf css_file) = true →
        classifyImport fs directory file_path css_file allowed
          = ImportClass.compliant)
      ∧ ((allowed.any fun pat => pat.isSuffixOf css_file) = false →
        classifyImport fs directory file_path css_file allowed
          = ImportClass.disallowed))
  ∧ processImports fs directory file_path allowed refs
      = (refs.filterMap (violationOf fs directory file_path allowed),
        refs.filterMap (correctOf fs directory file_path allowed))
  ∧ (∀ r : Str, (violationOf fs directory file_path allowed r).isSome
      = !(correctOf fs directory file_path allowed r).isSome) := by
  refine ⟨?_, ?_, ?_, ?_⟩
  · rintro ⟨h1, h2⟩
    simp [classifyImport, resolveCssPath, h1, h2]
  · intro h
    by_cases hp : fs.pathExists (joinPath (dirname file_path) css_file) = true
    · exact ⟨fun hany => by simp [classifyImport, resolveCssPath, hp, hany],
        fun hany => by simp [classifyImport, resolveCssPath, hp, hany]⟩
    · simp only [Bool.not_eq_true] at hp
      have h2 : fs.pathExists (joinPath (abspath fs directory) css_file) = true := by
        rcases h with h | h
        · rw [hp] at h; exact Bool.noConfusion h
        · exact h
      exact ⟨fun hany => by simp [classifyImport, resolveCssPath, hp, h2, hany],
        fun hany => by simp [classifyImport, resolveCssPath, hp, h2, hany]⟩
  · induction refs with
    | nil => rfl
    | cons r rest ih =>
      simp only [processImports, List.filterMap_cons]
      cases hcl : classifyImport fs directory file_path r allowed <;>
        simp [violationOf, correctOf, hcl, ih]
  · intro r
    cases hcl : classifyImport fs directory file_path r allowed <;>
      simp [violationOf, correctOf, hcl]

theorem import_classification_order_c1_witness :
    classifyImport fs0 ("/r".data) ("/r/a.tsx".data) ("x.css".data)
        ["app.module.css".data] = ImportClass.fileNotFound
  ∧ classifyImport fs1 ("/r".data) ("/r/a.tsx".data) ("app.module.css".data)
        ["app.module.css".data] = ImportClass.compliant
  ∧ classifyImport fs1 ("/r".data) ("/r/a.tsx".data) ("x.css".data)
        ["app.module.css".data] = ImportClass.disallowed :=
  ⟨(import_classification_order_c1 fs0 ("/r".data) ("/r/a.tsx".data) ("x.css".data)
      ["app.module.css".data] []).1 ⟨rfl, rfl⟩,
   ((import_classification_order_c1 fs1 ("/r".data) ("/r/a.tsx".data)
      ("app.module.css".data) ["app.module.css".data] []).2.1 (Or.inl rfl)).1
      (by decide),
   ((import_classification_order_c1 fs1 ("/r".data) ("/r/a.tsx".data) ("x.css".data)
      ["app.module.css".data] []).2.1 (Or.inl rfl)).2 (by decide)⟩

/-- C2 (amended): a file contributes exactly one embedded-style entry iff
the color scan finds at least one match, with all captured tokens listed in
order of appearance and case preserved; but `re.findall` records the capture
group — the last three-hex-digit repetition — so the content
`color: #1A2b3C;` yields the token list `[b3C]`, and a content in which no
`#` is followed by three hex digits yields no entry. -/
theorem embedded_entry_iff_c2_amended (fs : FS)
    (directory file_path content : Str) (allowed : List Str) :
    (check_embedded_css content = [] →
      (analyzeContent fs directory file_path content allowed).embedded_violations
        = [])
  ∧ (check_embedded_css content ≠ [] →
      (analyzeContent fs directory file_path content allowed).embedded_violations
        = [⟨file_path, check_embedded_css content⟩])
  ∧ check_embedded_css ("color: #1A2b3C;".data) = ["b3C".data]
  ∧ check_embedded_css ("color: red;".data) = [] := by
  refine ⟨fun h => ?_, fun h => ?_, by decide, by decide⟩
  · simp [analyzeContent, h]
  · simp [analyzeContent, h]

theorem embedded_entry_iff_c2_amended_witness :
    (analyzeContent fs0 ("/r".data) ("/r/a.tsx".data) ("color: red;".data)
        ["app.module.css".data]).embedded_violations = []
  ∧ (analyzeContent fs0 ("/r".data) ("/r/a.tsx".data) ("x #FF0000 y".data)
        ["app.module.css".data]).embedded_violations
      = [⟨"/r/a.tsx".data, check_embedded_css ("x #FF0000 y".data)⟩] :=
  ⟨(embedded_entry_iff_c2_amended fs0 ("/r".data) ("/r/a.tsx".data)
      ("color: red;".data) ["app.module.css".data]).1 (by decide),
   (embedded_entry_iff_c2_amended fs0 ("/r".data) ("/r/a.tsx".data)
      ("x #FF0000 y".data) ["app.module.css".data]).2.1 (by decide)⟩

/-- C2 counterexample: for the content `color: #1A2b3C;` the single
embedded-style entry's token list is `[b3C]` — it does not contain
`1A2b3C`, contrary to the claim. -/
theorem embedded_token_c2_cex :
    (analyzeContent fs0 ("/r".data) ("/r/a.tsx".data) ("color: #1A2b3C;".data)
        ["app.module.css".data]).embedded_violations
      = [⟨"/r/a.tsx".data, ["b3C".data]⟩]
  ∧ ¬ ("1A2b3C".data ∈ ["b3C".data]) := by
  decide

/-- C3: the exit code is `0` iff both the import-violation and the
embedded-style sequences are empty; it does not depend on the
`--show_success` flag, and as a function of the scan result it ignores the
compliant-import sequence entirely. -/
theorem exit_code_c3 (fs : FS) (directory : Str)
    (exclude_files exclude_directories allowed_css_patterns : List Str)
    (show_success : Bool) :
    ((mainRun fs directory exclude_files exclude_directories allowed_css_patterns
        show_success).2 = 0
      ↔ ((check_files fs directory exclude_files exclude_directories
            allowed_css_patterns).1.violations = []
        ∧ (check_files fs directory exclude_files exclude_directories
            allowed_css_patterns).1.embedded_violations = []))
  ∧ (mainRun fs directory exclude_files exclude_directories allowed_css_patterns
        show_success).2
      = (mainRun fs directory exclude_files exclude_directories
        allowed_css_patterns false).2
  ∧ (∀ (v : List Violation) (c c' : List CorrectImport)
      (e : List EmbeddedViolation), exitCodeOf ⟨v, c, e⟩ = exitCodeOf ⟨v, c', e⟩) := by
  refine ⟨?_, by simp [mainRun], fun v c c' e => by simp [exitCodeOf]⟩
  by_cases h1 : (check_files fs directory exclude_files exclude_directories
      allowed_css_patterns).1.violations = [] <;>
    by_cases h2 : (check_files fs directory exclude_files exclude_directories
      allowed_css_patterns).1.embedded_violations = [] <;>
    simp [mainRun, exitCodeOf, h1, h2]

/-- C4 (amended): the exclusion lists are normalised with `abspath`, and a
walked directory is dropped — with everything below it, since deeper walk
entries extend its reported path — exactly when its walk-reported path
string begins with a normalised excluded entry.  The walk-reported path is
absolute only when the scan root was supplied in absolute form, so with a
relative root the comparison generally never fires; excluded entries need
not exist on disk. -/
theorem dir_exclusion_c4_amended (fs : FS) (directory : Str)
    (exF exD allowed : List Str) (root : Str) (files : List Str)
    (rest : List (Str × List Str)) :
    (((exD.map (abspath fs)).any fun d => d.isPrefixOf root) = true →
      walkFold fs directory (exF.map (abspath fs)) (exD.map (abspath fs)) allowed
          ((root, files) :: rest)
        = walkFold fs directory (exF.map (abspath fs)) (exD.map (abspath fs))
          allowed rest)
  ∧ (((exD.map (abspath fs)).any fun d => d.isPrefixOf root) = false →
      walkFold fs directory (exF.map (abspath fs)) (exD.map (abspath fs)) allowed
          ((root, files) :: rest)
        = (appendResult
            (filesFold fs directory root (exF.map (abspath fs)) allowed files).1
            (walkFold fs directory (exF.map (abspath fs)) (exD.map (abspath fs))
              allowed rest).1,
          (filesFold fs directory root (exF.map (abspath fs)) allowed files).2 ++
            (walkFold fs directory (exF.map (abspath fs)) (exD.map (abspath fs))
              allowed rest).2)) := by
  constructor <;> intro h <;> simp [walkFold, h]

theorem dir_exclusion_c4_amended_witness :
    walkFold fs0 ("/w".data) [] (["/w/s".data].map (abspath fs0)) []
        [("/w/s/t".data, ["a.ts".data])]
      = walkFold fs0 ("/w".data) [] (["/w/s".data].map (abspath fs0)) [] []
  ∧ walkFold fs0 ("/w".data) [] (["/w/s".data].map (abspath fs0)) []
        [("/w/q".data, [])]
      = (appendResult (filesFold fs0 ("/w".data) ("/w/q".data) [] [] []).1
          (walkFold fs0 ("/w".data) [] (["/w/s".data].map (abspath fs0)) [] []).1,
        (filesFold fs0 ("/w".data) ("/w/q".data) [] [] []).2 ++
          (walkFold fs0 ("/w".data) [] (["/w/s".data].map (abspath fs0)) [] []).2) :=
  ⟨(dir_exclusion_c4_amended fs0 ("/w".data) [] ["/w/s".data] [] ("/w/s/t".data)
      ["a.ts".data] []).1 (by decide),
   (dir_exclusion_c4_amended fs0 ("/w".data) [] ["/w/s".data] [] ("/w/q".data)
      [] []).2 (by decide)⟩

/-- C4 counterexample: scanning the relative root `src` from working
directory `/w` while excluding `src/sub`, the excluded entry is normalised
to `/w/src/sub` and the walked directory `src/sub` has exactly that absolute
path, yet its file `b.ts` is still analysed and contributes an
embedded-style entry — the subtree is not skipped, because the code compares
the raw walk-reported path against the normalised entry. -/
theorem dir_exclusion_c4_cex :
    (["src/sub".data].map (abspath fsC4)) = ["/w/src/sub".data]
  ∧ ("/w/src/sub".data).isPrefixOf (abspath fsC4 ("src/sub".data)) = true
  ∧ (check_files fsC4 ("src".data) [] ["src/sub".data] ["app.module.css".data]).1
      = ⟨[], [], [⟨"/w/src/sub/b.ts".data, ["abc".data]⟩]⟩ := by
  decide

/-- C5: with an untraversable root, `os.walk` (whose default
`onerror=None` swallows the scandir failure) yields no entries, so the scan
returns empty results, `main` prints nothing, and the process exits with
code `0` — the failure is silently swallowed instead of terminating the
tool visibly. -/
theorem unreadable_root_silent_c5 :
    check_files fs0 ("/nonexistent".data) [] [] ["app.module.css".data]
      = (emptyResult, [])
  ∧ mainRun fs0 ("/nonexistent".data) [] [] ["app.module.css".data] false
      = ([], 0)
  ∧ mainRun fs0 ("/nonexistent".data) [] [] ["app.module.css".data] true
      = ([], 0) := by
  decide

theorem list_all_drop {α : Type} (p : α → Bool) (l : List α) (n : Nat)
    (h : l.all p = true) : (l.drop n).all p = true := by
  rw [List.all_eq_true] at h ⊢
  intro x hx
  exact h x (List.mem_of_mem_drop hx)

theorem scanColor_tokens (fuel : Nat) (cs : Str) :
    ((scanColor fuel cs).all
      fun t => (t.length == 3) && t.all isHexDigitCh) = true := by
  induction fuel generalizing cs with
  | zero => rfl
  | succ fuel ih =>
    cases cs with
    | nil => rfl
    | cons c cs =>
      simp only [scanColor]
      by_cases hc : (c == '#') = true
      · rw [if_pos hc]
        by_cases h6 : hasHexRun cs 6 = true
        · rw [if_pos h6]
          have hlen : 6 ≤ cs.length := by
            have := h6
            unfold hasHexRun at this
            exact of_decide_eq_true (Bool.and_elim_left this)
          have hall : (cs.take 6).all isHexDigitCh = true := by
            have := h6
            unfold hasHexRun at this
            exact Bool.and_elim_right this
          simp only [List.all_cons, ih, Bool.and_true]
          have h1 : ((cs.take 6).drop 3).length = 3 := by
            simp [List.length_drop, List.length_take]
            omega
          have h2 : ((cs.take 6).drop 3).all isHexDigitCh = true :=
            list_all_drop isHexDigitCh (cs.take 6) 3 hall
          simp [h1, h2]
        · rw [if_neg h6]
          by_cases h3 : hasHexRun cs 3 = true
          · rw [if_pos h3]
            have hlen : 3 ≤ cs.length := by
              have := h3
              unfold hasHexRun at this
              exact of_decide_eq_true (Bool.and_elim_left this)
            have hall : (cs.take 3).all isHexDigitCh = true := by
              have := h3
              unfold hasHexRun at this
              exact Bool.and_elim_right this
            have h1 : (cs.take 3).length = 3 := by
              simp [List.length_take]
              omega
            simp [List.all_cons, ih, h1, hall]
          · rw [if_neg h3]
            exact ih cs
      · rw [if_neg hc]
        exact ih cs

/-- C6 (amended): at each `#` the detector greedily matches six hex digits
when available, else three, else nothing (case-insensitive, leftmost,
non-overlapping), and `re.findall` records the final repetition of the
three-digit capture group; hence every recorded token is exactly three hex
digits, a `#` followed by four or five hex digits yields a match of the
first three, and a `#` followed by fewer than three yields none. -/
theorem color_regex_c6_amended :
    (∀ content : Str, ((check_embedded_css content).all
      fun t => (t.length == 3) && t.all isHexDigitCh) = true)
  ∧ check_embedded_css ("#1234".data) = ["123".data]
  ∧ check_embedded_css ("#12345".data) = ["123".data]
  ∧ check_embedded_css ("#123456".data) = ["456".data]
  ∧ check_embedded_css ("#AbCdEf99".data) = ["dEf".data]
  ∧ check_embedded_css ("#12".data) = []
  ∧ check_embedded_css ("#zz123".data) = [] :=
  ⟨fun content => scanColor_tokens (content.length + 1) content,
   by decide, by decide, by decide, by decide, by decide, by decide⟩

/-- C6 counterexample: a `#` followed by four hex digits does yield a match
(of the first three digits), contrary to the claim that it yields none. -/
theorem color_regex_c6_cex :
    check_embedded_css ("#1234".data) = ["123".data]
  ∧ check_embedded_css ("#1234".data) ≠ [] := by
  decide

/-- C7: when the walk-reported directory path contains the substring
`test`, every file listed under it fails the selection filter, so the whole
directory contributes no result entry and no diagnostic, regardless of the
files' names or contents. -/
theorem test_dir_skip_c7 (fs : FS) (directory root : Str) (exF allowed : List Str)
    (files : List Str) (h : hasSubstr root ("test".data) = true) :
    filesFold fs directory root exF allowed files = (emptyResult, []) := by
  induction files with
  | nil => rfl
  | cons f rest ih =>
    simp [filesFold, ih, processOneFile, h, appendResult, emptyResult]

theorem test_dir_skip_c7_witness :
    filesFold fs0 ("/w".data) ("a/test/b".data) [] [] ["x.tsx".data]
      = (emptyResult, []) :=
  test_dir_skip_c7 fs0 ("/w".data) ("a/test/b".data) [] [] ["x.tsx".data]
    (by decide)

/-- C8: a selected file whose read fails contributes exactly one diagnostic
line and nothing to any result sequence, and the fold continues over the
remaining files. -/
theorem read_failure_skip_c8 (fs : FS) (directory root : Str)
    (exF allowed : List Str) (file : Str) (rest : List Str)
    (h1 : exF.contains (abspath fs (joinPath root file)) = false)
    (h2 : (".ts".data.isSuffixOf file || ".tsx".data.isSuffixOf file) = true)
    (h3 : hasSubstr root ("test".data) = false)
    (h4 : fs.readFile (abspath fs (joinPath root file)) = none) :
    filesFold fs directory root exF allowed (file :: rest)
      = ((filesFold fs directory root exF allowed rest).1,
        readErrLine (abspath fs (joinPath root file)) ::
          (filesFold fs directory root exF allowed rest).2) := by
  have h1' : ¬ (abspath fs (joinPath root file)) ∈ exF := by simpa using h1
  rcases hrest : filesFold fs directory root exF allowed rest with ⟨⟨v, ci, ev⟩, d⟩
  simp [filesFold, processOneFile, h1', h2, h3, h4, appendResult, emptyResult, hrest]

theorem read_failure_skip_c8_witness :
    filesFold fs0 ("/w".data) ("/w/s".data) [] [] ["a.ts".data]
      = ((filesFold fs0 ("/w".data) ("/w/s".data) [] [] []).1,
        readErrLine (abspath fs0 (joinPath ("/w/s".data) ("a.ts".data))) ::
          (filesFold fs0 ("/w".data) ("/w/s".data) [] [] []).2) :=
  read_failure_skip_c8 fs0 ("/w".data) ("/w/s".data) [] [] ("a.ts".data) []
    (by decide) (by decide) (by decide) rfl

/-- C9: the `test` filter looks only at the walk-reported directory path,
never at the file's own name — any `.ts`/`.tsx` file whose directory path
has no `test` substring and that is not explicitly excluded is read and
analysed like any other file, whatever its name. -/
theorem test_in_filename_analyzed_c9 (fs : FS) (directory root : Str)
    (exF allowed : List Str) (file : Str) (rest : List Str) (content : Str)
    (h1 : exF.contains (abspath fs (joinPath root file)) = false)
    (h2 : (".ts".data.isSuffixOf file || ".tsx".data.isSuffixOf file) = true)
    (h3 : hasSubstr root ("test".data) = false)
    (h4 : fs.readFile (abspath fs (joinPath root file)) = some content) :
    filesFold fs directory root exF allowed (file :: rest)
      = (appendResult
          (analyzeContent fs directory (abspath fs (joinPath root file)) content
            allowed)
          (filesFold fs directory root exF allowed rest).1,
        (filesFold fs directory root exF allowed rest).2) := by
  have h1' : ¬ (abspath fs (joinPath root file)) ∈ exF := by simpa using h1
  rcases hrest : filesFold fs directory root exF allowed rest with ⟨⟨v, ci, ev⟩, d⟩
  simp [filesFold, processOneFile, h1', h2, h3, h4, hrest]

theorem test_in_filename_analyzed_c9_witness :
    filesFold fsC9 ("src".data) ("src/components".data) []
        ["app.module.css".data] ["App.test.tsx".data]
      = (appendResult
          (analyzeContent fsC9 ("src".data)
            (abspath fsC9 (joinPath ("src/components".data) ("App.test.tsx".data)))
            ("#AbC".data) ["app.module.css".data])
          (filesFold fsC9 ("src".data) ("src/components".data) []
            ["app.module.css".data] []).1,
        (filesFold fsC9 ("src".data) ("src/components".data) []
          ["app.module.css".data] []).2)
  ∧ (analyzeContent fsC9 ("src".data)
      (abspath fsC9 (joinPath ("src/components".data) ("App.test.tsx".data)))
      ("#AbC".data) ["app.module.css".data]).embedded_violations ≠ [] :=
  ⟨test_in_filename_analyzed_c9 fsC9 ("src".data) ("src/components".data) []
    ["app.module.css".data] ("App.test.tsx".data) [] ("#AbC".data)
    (by decide) (by decide) (by decide) (by decide),
   by decide⟩

/-- C10: with an empty allowed-suffix list the scan never produces a
compliant import, and every reference whose resolved candidate exists is
classified as an `Invalid import` violation. -/
theorem empty_allowed_no_compliant_c10 (fs : FS) (directory : Str)
    (exclude_files exclude_directories : List Str) :
    ((check_files fs directory exclude_files exclude_directories []).1.correct_imports
      = [])
  ∧ (∀ file_path css_file : Str,
      fs.pathExists (resolveCssPath fs directory file_path css_file) = true →
      classifyImport fs directory file_path css_file []
        = ImportClass.disallowed) := by
  constructor
  · exact walkFold_no_allowed fs directory (exclude_files.map (abspath fs))
      (exclude_directories.map (abspath fs)) fs.walk
  · intro fp cf h
    simp [classifyImport, h]

theorem empty_allowed_no_compliant_c10_witness :
    ((check_files fs1 ("/w".data) [] [] []).1.correct_imports = [])
  ∧ classifyImport fs1 ("/w".data) ("/w/a.tsx".data) ("a.css".data) []
      = ImportClass.disallowed :=
  ⟨(empty_allowed_no_compliant_c10 fs1 ("/w".data) [] []).1,
   (empty_allowed_no_compliant_c10 fs1 ("/w".data) [] []).2 ("/w/a.tsx".data)
     ("a.css".data) rfl⟩

end CssCheck
